import Mathlib

/-!
# DealScout negotiation core — shallow embedding and verification

This file embeds the negotiation turn-taking engine of the DealScout
repository (`backend/core/negotiation_loop.py`, `backend/agents/buyer_agent.py`,
`backend/agents/seller_agent.py`, `backend/utils/price_utils.py`,
`backend/config/settings.py`) into Lean and proves properties about it.

Python floats are modelled as rationals (ℚ); none of the verified properties
depend on binary floating-point rounding.  Python dict payloads whose fields
may be absent, `None`, or of the wrong type are modelled by the `PyVal` sum
type together with `Option PyVal` fields (absent key = `Option.none`,
key present with value `None` = `some PyVal.none`).  The external LLM decision
source is modelled as an oracle function that either raises (transport
failure, `Except.error`) or yields a parsed, untrusted decision dict.
-/

namespace DealScout

/-- A Python value as it can appear in a parsed JSON decision dict. -/
inductive PyVal
  | none
  | bool (b : Bool)
  | num (q : ℚ)
  | str (s : String)
  deriving DecidableEq, Repr

/-- Python truthiness: `None`, `False`, `0`, and `""` are falsy. -/
def pyTruthy : PyVal → Bool
  | PyVal.none => false
  | PyVal.bool b => b
  | PyVal.num q => decide (q ≠ 0)
  | PyVal.str s => decide (s ≠ "")

/-- Python `x or y`. -/
def pyOr (x y : PyVal) : PyVal := if pyTruthy x then x else y

/-- Python `str.strip()`: drop leading and trailing whitespace.  Implemented
over the character list so that it evaluates by kernel reduction. -/
def pyStrip (s : String) : String :=
  String.mk (((s.data.dropWhile Char.isWhitespace).reverse.dropWhile Char.isWhitespace).reverse)

/-- Numeric value of a decimal digit list, most significant first. -/
def digitsVal (cs : List Char) : Nat := cs.foldl (fun a c => a * 10 + (c.toNat - 48)) 0

/-- Parse an unsigned decimal literal (`"12"`, `"12.5"`, `"12."`, `".5"`),
as accepted by Python `float()`.  (Exponent notation and `inf`/`nan` are not
modelled; no verified property depends on them.) -/
def parseUnsignedDecimal (cs : List Char) : Option ℚ :=
  let intPart := cs.takeWhile Char.isDigit
  let rest := cs.dropWhile Char.isDigit
  match rest with
  | [] => if intPart.isEmpty then Option.none else some (digitsVal intPart : ℚ)
  | '.' :: frac =>
    if frac.all Char.isDigit ∧ ¬(intPart.isEmpty ∧ frac.isEmpty) then
      some ((digitsVal intPart : ℚ) + (digitsVal frac : ℚ) / ((10 : ℚ) ^ frac.length))
    else Option.none
  | _ => Option.none

/-- Parse a signed decimal literal (Python `float()` strips surrounding
whitespace first). -/
def parseDecimal (s : String) : Option ℚ :=
  match (pyStrip s).data with
  | '-' :: cs => (parseUnsignedDecimal cs).map (fun q => -q)
  | '+' :: cs => parseUnsignedDecimal cs
  | cs => parseUnsignedDecimal cs

/-- Python `float(x)`: succeeds on numbers, bools (`bool` is an `int`
subclass) and decimal string literals; raises (here: `Option.none`)
on `None` and non-numeric strings. -/
def pyFloat : PyVal → Option ℚ
  | PyVal.num q => some q
  | PyVal.bool b => some (if b then 1 else 0)
  | PyVal.str s => parseDecimal s
  | PyVal.none => Option.none

/-- Python `isinstance(x, (int, float))`, returning the numeric value when it
holds (`bool` is a subclass of `int`, so it counts). -/
def pyIsNum : PyVal → Option ℚ
  | PyVal.num q => some q
  | PyVal.bool b => some (if b then 1 else 0)
  | _ => Option.none

/-- The party taking a turn. -/
inductive Party
  | buyer
  | seller
  deriving DecidableEq, Repr

/-- A raw decision dict as produced by `parse_json_response` /
`_safe_parse_response`: each of the four keys may be absent
(`Option.none`) or hold an arbitrary value. -/
structure RawDecision where
  action : Option PyVal
  offer_price : Option PyVal
  message : Option PyVal
  confidence : Option PyVal
  deriving DecidableEq, Repr

/-- One entry of the loop's `history` list
(`negotiation_loop.py` lines 112-121 and 158-167). -/
structure HistEntry where
  turn : Nat
  party : Party
  action : String
  offer_price : Option ℚ
  message : PyVal
  confidence : PyVal
  deriving DecidableEq, Repr

/-- Abstraction of Python's `f"{q:.2f}"` price rendering.  The exact digit
string is irrelevant to every verified property; only definedness matters
(formatting `None` raises, which is modelled separately). -/
def fmtMoney (q : ℚ) : String := toString q

/-- `BuyerAgent._normalize_response` valid actions (buyer_agent.py line 140). -/
def buyerAllowed : List String := ["offer", "counter_offer", "accept", "reject", "walk_away"]

/-- `SellerAgent._normalize_response` valid actions (seller_agent.py line 118). -/
def sellerAllowed : List String := ["accept", "reject", "counter_offer"]

/-- The dict returned by `BuyerAgent._normalize_response`: the action is a
validated string and the offer price is numeric or `None`, but `message` and
`confidence` are passed through as raw values. -/
structure BuyerDecision where
  action : String
  offer_price : Option ℚ
  message : PyVal
  confidence : PyVal
  deriving DecidableEq, Repr

/-- The dict returned by `SellerAgent._normalize_response`: the seller
normalizer additionally guarantees a non-empty string message and a clamped
numeric confidence. -/
structure SellerDecision where
  action : String
  offer_price : Option ℚ
  message : String
  confidence : ℚ
  deriving DecidableEq, Repr

/-- `BuyerAgent._fallback_price` reverse scan (buyer_agent.py lines 181-187):
two independent `if`s update the last seen buyer/seller prices; the scan
stops early once both are non-`None`. -/
def fbScan : List HistEntry → Option ℚ → Option ℚ → Option ℚ × Option ℚ
  | [], b, s => (b, s)
  | t :: rest, b, s =>
    let b2 := if b = Option.none ∧ t.party = Party.buyer then t.offer_price else b
    let s2 := if s = Option.none ∧ t.party = Party.seller then t.offer_price else s
    if b2 ≠ Option.none ∧ s2 ≠ Option.none then (b2, s2) else fbScan rest b2 s2

/-- `BuyerAgent._fallback_price` (buyer_agent.py lines 173-199).  The final
combination uses Python truthiness (`if last_buyer and last_seller:` …), so a
price equal to `0` behaves like a missing price there. -/
def fallbackPrice (history : List HistEntry) : ℚ :=
  let r := fbScan history.reverse Option.none Option.none
  let truthyB := match r.1 with
    | some q => decide (q ≠ 0)
    | Option.none => false
  let truthyS := match r.2 with
    | some q => decide (q ≠ 0)
    | Option.none => false
  if truthyB && truthyS then (r.1.getD 0 + r.2.getD 0) / 2
  else if truthyB then r.1.getD 0
  else if truthyS then r.2.getD 0
  else 0

/-- `NegotiationLoop._check_convergence` reverse scan
(negotiation_loop.py lines 319-326): an `if`/`elif` chain, early exit once
both found. -/
def convScan : List HistEntry → Option ℚ → Option ℚ → Option ℚ × Option ℚ
  | [], b, s => (b, s)
  | t :: rest, b, s =>
    let p := if t.party = Party.buyer ∧ b = Option.none then (t.offer_price, s)
      else if t.party = Party.seller ∧ s = Option.none then (b, t.offer_price)
      else (b, s)
    if p.1 ≠ Option.none ∧ p.2 ≠ Option.none then p else convScan rest p.1 p.2

/-- `NegotiationLoop._check_convergence` (negotiation_loop.py lines 304-332). -/
def checkConvergence (history : List HistEntry) (threshold : ℚ) : Bool :=
  if history.length < 2 then false
  else
    let r := convScan history.reverse Option.none Option.none
    match r.1, r.2 with
    | some lb, some ls => decide (|lb - ls| ≤ threshold)
    | _, _ => false

/-- `BuyerAgent._normalize_response` (buyer_agent.py lines 131-168).
Validates the action against `buyerAllowed`, coerces the price to a number
for `offer`/`counter_offer` (falling back to `fallbackPrice` when not
coercible), and forces the price to `None` for `walk_away`/`reject`/`accept`.
The message and confidence are returned exactly as received (defaulted only
when the key is absent); the buyer normalizer performs no validation or
clamping on them. -/
def buyerAction (parsed : RawDecision) : String :=
  match parsed.action.getD (PyVal.str "offer") with
  | PyVal.str s => if s ∈ buyerAllowed then s else "offer"
  | _ => "offer"

/-- The buyer price normalization (buyer_agent.py lines 150-161): coerce to a
number for `offer`/`counter_offer` (falling back to the history midpoint),
force `None` for `walk_away`/`reject`/`accept`.  No budget bound is applied
anywhere. -/
def buyerPrice (action : String) (rawPrice : PyVal) (history : List HistEntry) : Option ℚ :=
  if action = "offer" ∨ action = "counter_offer" then
    match pyFloat rawPrice with
    | some q => some q
    | Option.none => some (fallbackPrice history)
  else Option.none

def buyerNormalize (parsed : RawDecision) (history : List HistEntry) : BuyerDecision :=
  ⟨buyerAction parsed,
    buyerPrice (buyerAction parsed) (parsed.offer_price.getD PyVal.none) history,
    parsed.message.getD (PyVal.str "Proceeding with negotiation."),
    parsed.confidence.getD (PyVal.num (1/2))⟩

/-- Seller message synthesis (seller_agent.py lines 148-155), used when the
raw message is not a string or is blank. -/
def sellerSynthMessage (action : String) (price : Option ℚ) (minAcceptable : ℚ) : String :=
  match action, price with
  | "accept", some p => "I accept your offer of $" ++ (fmtMoney p ++ ".")
  | "counter_offer", some p => "I can offer $" ++ (fmtMoney p ++ ".")
  | _, _ => "I cannot go below $" ++ (fmtMoney minAcceptable ++ ".")

/-- `SellerAgent._normalize_response` (seller_agent.py lines 109-169).
Validates the action against `sellerAllowed`; coerces the price with
`float()` for `counter_offer` (to `None` on failure) and clamps it up to
`min_acceptable`; for `accept`/`reject` keeps the raw price only when it is
already numeric.  An `accept` below the floor is NOT downgraded — the clamp
applies to `counter_offer` only.  Guarantees a non-empty string message and a
confidence clamped to [0, 1] (0.5 on coercion failure). -/
def sellerAction (parsed : RawDecision) : String :=
  match parsed.action.getD (PyVal.str "reject") with
  | PyVal.str s => if s ∈ sellerAllowed then s else "reject"
  | _ => "reject"

/-- The seller price normalization (seller_agent.py lines 124-146): for
`counter_offer`, `float()` coercion (to `None` on failure) followed by the
clamp up to `min_acceptable`; for `accept`/`reject`, keep the raw value only
when it is already numeric.  The clamp is applied to `counter_offer` only —
an `accept` below the floor keeps its sub-floor price. -/
def sellerPrice (action : String) (rawPrice : PyVal) (minAcceptable : ℚ) : Option ℚ :=
  let price1 : Option ℚ := if action = "counter_offer" then pyFloat rawPrice else pyIsNum rawPrice
  if action = "counter_offer" then
    match price1 with
    | some q => some (if q < minAcceptable then minAcceptable else q)
    | Option.none => Option.none
  else price1

/-- The seller message normalization (seller_agent.py lines 148-155). -/
def sellerMessage (action : String) (price : Option ℚ) (rawMessage : PyVal)
    (minAcceptable : ℚ) : String :=
  match rawMessage with
  | PyVal.str s => if pyStrip s = "" then sellerSynthMessage action price minAcceptable else s
  | _ => sellerSynthMessage action price minAcceptable

def sellerNormalize (parsed : RawDecision) (minAcceptable : ℚ) : SellerDecision :=
  let action := sellerAction parsed
  let price := sellerPrice action (parsed.offer_price.getD PyVal.none) minAcceptable
  ⟨action, price,
    sellerMessage action price (parsed.message.getD (PyVal.str "")) minAcceptable,
    max 0 (min 1 ((pyFloat (parsed.confidence.getD (PyVal.num (1/2)))).getD (1/2)))⟩

/-- Negotiation settings (`backend/config/settings.py` defaults). -/
structure Config where
  max_turns : Nat := 8
  convergence_threshold : ℚ := 20
  buyer_budget_multiplier : ℚ := 95/100
  seller_minimum_multiplier : ℚ := 88/100
  deriving DecidableEq, Repr

/-- The default settings instance (`settings.py` environment defaults). -/
def defaultConfig : Config := {}

/-- The listing dict handed to `run_negotiation`.  Keys may be absent. -/
structure Listing where
  id : Option String
  title : Option String
  price : Option PyVal
  seller_id : Option String
  condition : Option String
  extras : List String
  deriving DecidableEq, Repr

/-- A rendered `NegotiationMessage`. -/
structure Msg where
  role : String
  content : String
  deriving DecidableEq, Repr

/-- The `NegotiationResult` Pydantic model (`backend/db/models.py` lines
103-112); the timestamp field is not modelled. -/
structure NegotiationResult where
  listing_id : String
  seller_id : String
  original_price : ℚ
  negotiated_price : ℚ
  messages : List Msg
  status : String
  savings : ℚ
  turn_count : Nat
  deriving DecidableEq, Repr

/-- A decision source: one call of `generate_response` for one turn.  It sees
the turn number and the accumulated history (the preference structs and
market context influence only the LLM prompt, which the oracle abstracts) and
either raises (`Except.error`, a transport/provider failure) or yields a
parsed untrusted decision dict (the `_safe_parse_response` output, which
never raises). -/
def Oracle : Type := Nat → List HistEntry → Except String RawDecision

/-- How one turn of the loop body ends. -/
inductive TurnOut
  | cont
  | deal (p : ℚ)
  | brk
  | err (e : String)
  deriving DecidableEq, Repr

/-- `TypeError` raised by `f"{None:.2f}"` (negotiation_loop.py lines 129/174
when the accepted decision's `offer_price` is `None`). -/
def formatNoneErr : String := "unsupported format string passed to NoneType.__format__"

/-- Pydantic v2 `ValidationError` raised by
`NegotiationMessage(role=..., content=...)` when `content` is not a string. -/
def contentTypeErr : String := "Input should be a valid string"

/-- A buyer turn (negotiation_loop.py lines 94-138): call the decision
source, normalize, emit the buyer message, append to history, then check the
terminal actions.  Returns the messages emitted this turn, the new history,
and the control outcome.  Crash points, in source order: the decision-source
call itself; `NegotiationMessage` validation of a non-string message (before
the history append); the `f"{final_price:.2f}"` format of a `None` price on
accept (after the history append).  The buyer normalizer always nulls the
price on accept, so the `deal` branch here is dead code, exactly as in the
source. -/
def stepBuyer (bo : Oracle) (t : Nat) (hist : List HistEntry) :
    List Msg × List HistEntry × TurnOut :=
  match bo t hist with
  | Except.error e => ([], hist, TurnOut.err e)
  | Except.ok parsed =>
    let d := buyerNormalize parsed hist
    match d.message with
    | PyVal.str m =>
      let entry : HistEntry := ⟨t, Party.buyer, d.action, d.offer_price, d.message, d.confidence⟩
      let hist2 := hist ++ [entry]
      if d.action = "accept" then
        match d.offer_price with
        | some p => ([Msg.mk "buyer" m, Msg.mk "system" ("✅ Deal reached at $" ++ fmtMoney p)],
            hist2, TurnOut.deal p)
        | Option.none => ([Msg.mk "buyer" m], hist2, TurnOut.err formatNoneErr)
      else if d.action = "walk_away" then
        ([Msg.mk "buyer" m, Msg.mk "system" "❌ Buyer walked away."], hist2, TurnOut.brk)
      else ([Msg.mk "buyer" m], hist2, TurnOut.cont)
    | _ => ([], hist, TurnOut.err contentTypeErr)

/-- A seller turn (negotiation_loop.py lines 143-183), symmetric to
`stepBuyer` with `reject` in place of `walk_away`.  The seller normalizer
always yields a string message, so no `NegotiationMessage` validation error
can occur here. -/
def stepSeller (so : Oracle) (minAcceptable : ℚ) (t : Nat) (hist : List HistEntry) :
    List Msg × List HistEntry × TurnOut :=
  match so t hist with
  | Except.error e => ([], hist, TurnOut.err e)
  | Except.ok parsed =>
    let d := sellerNormalize parsed minAcceptable
    let entry : HistEntry := ⟨t, Party.seller, d.action, d.offer_price, PyVal.str d.message,
      PyVal.num d.confidence⟩
    let hist2 := hist ++ [entry]
    if d.action = "accept" then
      match d.offer_price with
      | some p => ([Msg.mk "seller" d.message, Msg.mk "system" ("✅ Seller accepted $" ++ fmtMoney p)],
          hist2, TurnOut.deal p)
      | Option.none => ([Msg.mk "seller" d.message], hist2, TurnOut.err formatNoneErr)
    else if d.action = "reject" then
      ([Msg.mk "seller" d.message, Msg.mk "system" "❌ Seller rejected the offer."], hist2, TurnOut.brk)
    else ([Msg.mk "seller" d.message], hist2, TurnOut.cont)

/-- Turn dispatch (negotiation_loop.py line 94): odd turns are the buyer's,
even turns the seller's. -/
def stepTurn (bo so : Oracle) (minAcceptable : ℚ) (t : Nat) (hist : List HistEntry) :
    List Msg × List HistEntry × TurnOut :=
  if t % 2 = 1 then stepBuyer bo t hist else stepSeller so minAcceptable t hist

/-- How the `for turn_num in range(1, max_turns + 1)` loop ended. -/
inductive LoopEnd
  | finished (final : Option ℚ)
  | errored (e : String)
  deriving DecidableEq, Repr

/-- The advisory convergence message (negotiation_loop.py lines 188-194). -/
def convergenceMsg : Msg := Msg.mk "system" "💡 Offers are converging — consider accepting."

/-- The turn loop of `run_negotiation` (negotiation_loop.py lines 89-194).
`t` is the current turn number, `fuel` the number of turns still allowed
(initially `max_turns`).  After a continuing turn the advisory convergence
check may append a system message; it never affects control flow. -/
def loopAux (bo so : Oracle) (minAcceptable threshold : ℚ) :
    Nat → Nat → List Msg → List HistEntry → List Msg × List HistEntry × LoopEnd
  | _, 0, msgs, hist => (msgs, hist, LoopEnd.finished Option.none)
  | t, fuel + 1, msgs, hist =>
    let r := stepTurn bo so minAcceptable t hist
    let msgs2 := msgs ++ r.1
    match r.2.2 with
    | TurnOut.err e => (msgs2, r.2.1, LoopEnd.errored e)
    | TurnOut.deal p => (msgs2, r.2.1, LoopEnd.finished (some p))
    | TurnOut.brk => (msgs2, r.2.1, LoopEnd.finished Option.none)
    | TurnOut.cont =>
      let msgs3 := if checkConvergence r.2.1 threshold then msgs2 ++ [convergenceMsg] else msgs2
      loopAux bo so minAcceptable threshold (t + 1) fuel msgs3 r.2.1

/-- `float(listing.get("price", 0.0) or 0.0)` (negotiation_loop.py line 51).
This line sits outside the `try` block, so a non-coercible price value
propagates as an exception to the caller. -/
def askingOf (price : Option PyVal) : Except String ℚ :=
  match pyFloat (pyOr (price.getD PyVal.none) (PyVal.num 0)) with
  | some q => Except.ok q
  | Option.none => Except.error "could not convert listing price to float"

/-- The buyer budget (negotiation_loop.py lines 54-57): a truthy override is
used directly (`if buyer_budget_override:`), otherwise
`asking_price * buyer_budget_multiplier`.  A zero override is falsy and is
silently replaced by the multiplier-derived budget.  The budget feeds only
the buyer prompt; `BuyerAgent._normalize_response` never reads it. -/
def maxBudgetOf (cfg : Config) (asking : ℚ) (override : Option ℚ) : ℚ :=
  match override with
  | some b => if b ≠ 0 then b else asking * cfg.buyer_budget_multiplier
  | Option.none => asking * cfg.buyer_budget_multiplier

/-- Result assembly (negotiation_loop.py lines 196-237): the `except` handler
produces the error result; otherwise `final_price` decides between success
and no_deal.  In every branch `turn_count = len(history)` and on success
`savings = asking_price - final_price` with no lower bound. -/
def assembleResult (listing : Listing) (maxTurns : Nat) (asking : ℚ)
    (outcome : List Msg × List HistEntry × LoopEnd) : NegotiationResult :=
  let lid := listing.id.getD "unknown"
  let sid := listing.seller_id.getD "unknown"
  match outcome.2.2 with
  | LoopEnd.errored e =>
    ⟨lid, sid, asking, asking, outcome.1 ++ [Msg.mk "system" ("⚠️ Error: " ++ e)],
      "error", 0, outcome.2.1.length⟩
  | LoopEnd.finished (some p) =>
    ⟨lid, sid, asking, p, outcome.1, "success", asking - p, outcome.2.1.length⟩
  | LoopEnd.finished Option.none =>
    ⟨lid, sid, asking, asking,
      outcome.1 ++ [Msg.mk "system" ("⚠️ No agreement reached after " ++ (toString maxTurns ++ " turns"))],
      "no_deal", 0, outcome.2.1.length⟩

/-- `NegotiationLoop.run_negotiation` (negotiation_loop.py lines 32-237).
No input validation is performed: the asking price and the budget override
are used as-is; the only synchronous failure is the `float()` coercion of a
non-numeric listing price. -/
def runNegotiation (cfg : Config) (listing : Listing) (override : Option ℚ)
    (bo so : Oracle) : Except String NegotiationResult :=
  match askingOf listing.price with
  | Except.error e => Except.error e
  | Except.ok asking =>
    let _buyerBudget := maxBudgetOf cfg asking override
    let sellerMinimum := asking * cfg.seller_minimum_multiplier
    let startMsgs : List Msg :=
      [Msg.mk "system" ("🤝 Negotiation started for " ++ (listing.title.getD "product" ++ "."))]
    let outcome := loopAux bo so sellerMinimum cfg.convergence_threshold 1 cfg.max_turns startMsgs []
    Except.ok (assembleResult listing cfg.max_turns asking outcome)

/-- The `for msg in result.messages: message_callback(msg)` emission loop of
`run_negotiation_streaming` (negotiation_loop.py lines 262-264), returning
the sequence of callback invocations. -/
def emitLoop : List Msg → List Msg
  | [] => []
  | m :: ms => m :: emitLoop ms

/-- `NegotiationLoop.run_negotiation_streaming` (negotiation_loop.py lines
242-266): delegates wholesale to `run_negotiation`, then, if a callback was
supplied, invokes it once per message of the completed result.  The second
component of the pair is the list of callback invocations in order. -/
def runNegotiationStreaming (cfg : Config) (listing : Listing) (override : Option ℚ)
    (bo so : Oracle) (hasCallback : Bool) : Except String (NegotiationResult × List Msg) :=
  match runNegotiation cfg listing override bo so with
  | Except.error e => Except.error e
  | Except.ok result =>
    Except.ok (result, if hasCallback then emitLoop result.messages else [])

/-- `calculate_savings` (`backend/utils/price_utils.py` lines 8-10).  This
helper floors savings at 0, but `run_negotiation` does not call it. -/
def calculate_savings (original_price negotiated_price : ℚ) : ℚ :=
  max 0 (original_price - negotiated_price)

/-! ## Concrete oracles and listings used by counterexamples and witnesses -/

/-- A raw decision proposing an offer at price `p`. -/
def rawOffer (p : ℚ) : RawDecision :=
  ⟨some (PyVal.str "offer"), some (PyVal.num p),
    some (PyVal.str "I can do this price."), some (PyVal.num (1/2))⟩

/-- A raw decision counter-offering at price `p`. -/
def rawCounter (p : ℚ) : RawDecision :=
  ⟨some (PyVal.str "counter_offer"), some (PyVal.num p),
    some (PyVal.str "How about this."), some (PyVal.num (1/2))⟩

/-- A raw decision accepting at price `p`. -/
def rawAccept (p : ℚ) : RawDecision :=
  ⟨some (PyVal.str "accept"), some (PyVal.num p),
    some (PyVal.str "Deal."), some (PyVal.num (9/10))⟩

/-- A raw decision walking away. -/
def rawWalk : RawDecision :=
  ⟨some (PyVal.str "walk_away"), Option.none, some (PyVal.str "Bye."), Option.none⟩

/-- An oracle that always proposes an offer at price `p`. -/
def offerOracle (p : ℚ) : Oracle := fun _ _ => Except.ok (rawOffer p)

/-- An oracle that always counter-offers at price `p`. -/
def counterOracle (p : ℚ) : Oracle := fun _ _ => Except.ok (rawCounter p)

/-- An oracle that always accepts at price `p`. -/
def acceptOracle (p : ℚ) : Oracle := fun _ _ => Except.ok (rawAccept p)

/-- An oracle that always walks away. -/
def walkOracle : Oracle := fun _ _ => Except.ok rawWalk

/-- An oracle that always raises (transport failure). -/
def failOracle (e : String) : Oracle := fun _ _ => Except.error e

/-- A buyer oracle that offers 400 on turn 1 and raises from turn 3 on
(the spec's provider-failure scenario: the decision source raises on
turn 3). -/
def failAt3Oracle : Oracle := fun t _ =>
  if t = 1 then Except.ok (rawOffer 400) else Except.error "boom"

/-- A seller oracle that always counter-offers without naming a price
(the negotiation keeps going). -/
def stallOracle : Oracle := fun _ _ =>
  Except.ok ⟨some (PyVal.str "counter_offer"), some PyVal.none,
    some (PyVal.str "Thinking about it."), Option.none⟩

/-- A demo listing with asking price 450 (the spec's happy-path numbers:
max_budget 427.5, seller minimum 396). -/
def listingD : Listing :=
  ⟨some "L1", some "Laptop", some (PyVal.num 450), some "S1", Option.none, []⟩

/-- A listing with a negative asking price, for the input-validation claim. -/
def listingNeg : Listing :=
  ⟨some "L2", Option.none, some (PyVal.num (-50)), Option.none, Option.none, []⟩

/-- A history with a buyer offer of price 0 followed by a seller offer of
440 — the input on which truthiness breaks the fallback midpoint rule. -/
def histZero : List HistEntry :=
  [⟨1, Party.buyer, "offer", some 0, PyVal.str "m1", PyVal.num (1/2)⟩,
   ⟨2, Party.seller, "counter_offer", some 440, PyVal.str "m2", PyVal.num (1/2)⟩]

/-- History `[{buyer, 400}, {seller, 440}]` from the spec's fallback
examples. -/
def histBS : List HistEntry :=
  [⟨1, Party.buyer, "offer", some 400, PyVal.str "m1", PyVal.num (1/2)⟩,
   ⟨2, Party.seller, "counter_offer", some 440, PyVal.str "m2", PyVal.num (1/2)⟩]

/-- History `[{buyer, 400}]` from the spec's fallback examples. -/
def histB : List HistEntry :=
  [⟨1, Party.buyer, "offer", some 400, PyVal.str "m1", PyVal.num (1/2)⟩]

/-- A malformed raw decision: empty-string message and non-numeric
confidence. -/
def rawMalformed : RawDecision :=
  ⟨some (PyVal.str "offer"), some (PyVal.num 100), some (PyVal.str ""), some (PyVal.str "high")⟩

/-- History with last buyer offer 430 and last seller offer 440 (the spec's
converging example). -/
def histConv1 : List HistEntry :=
  [⟨1, Party.buyer, "offer", some 430, PyVal.str "m1", PyVal.num (1/2)⟩,
   ⟨2, Party.seller, "counter_offer", some 440, PyVal.str "m2", PyVal.num (1/2)⟩]

/-- History with last buyer offer 430 and last seller offer 470 (the spec's
non-converging example). -/
def histConv2 : List HistEntry :=
  [⟨1, Party.buyer, "offer", some 430, PyVal.str "m1", PyVal.num (1/2)⟩,
   ⟨2, Party.seller, "counter_offer", some 470, PyVal.str "m2", PyVal.num (1/2)⟩]

/-- The concrete error-status result of running `listingD` with a buyer
decision source that raises immediately on turn 1. -/
def resFail : NegotiationResult :=
  ⟨"L1", "S1", 450, 450,
    [Msg.mk "system" ("🤝 Negotiation started for " ++ ("Laptop" ++ ".")),
     Msg.mk "system" ("⚠️ Error: " ++ "b")],
    "error", 0, 0⟩

/-- The concrete no-deal result of running `listingD` with a buyer that
walks away on turn 1. -/
def resWalk : NegotiationResult :=
  ⟨"L1", "S1", 450, 450,
    [Msg.mk "system" ("🤝 Negotiation started for " ++ ("Laptop" ++ ".")),
     Msg.mk "buyer" "Bye.",
     Msg.mk "system" "❌ Buyer walked away.",
     Msg.mk "system" ("⚠️ No agreement reached after " ++ (toString (8 : Nat) ++ " turns"))],
    "no_deal", 0, 1⟩

/-! ## Helper lemmas -/

theorem str_append_ne_empty (a b : String) (h : a.length ≠ 0) : a ++ b ≠ "" := by
  intro hEq
  have h2 := congrArg String.length hEq
  rw [String.length_append] at h2
  have h3 : ("" : String).length = 0 := rfl
  rw [h3] at h2
  omega

theorem sellerSynthMessage_ne_empty (action : String) (price : Option ℚ) (m : ℚ) :
    sellerSynthMessage action price m ≠ "" := by
  unfold sellerSynthMessage
  split
  · exact str_append_ne_empty _ _ (by decide)
  · exact str_append_ne_empty _ _ (by decide)
  · exact str_append_ne_empty _ _ (by decide)

theorem pyStrip_empty_of_eq (s : String) (h : s = "") : pyStrip s = "" := by
  subst h; rfl

/-! ## C8 — fallback price estimator -/

/-- C8 (corrected): `fallback_price` scans history in reverse for the most
recent buyer and seller offer prices; when both are found and both are
nonzero it returns their midpoint, when exactly one is found it returns that
price, and it returns 0.0 for an empty scan; the spec's three examples hold.
(The claim's both-found clause fails when a found price equals 0, because
the combination step uses Python truthiness — see the counterexample.) -/
theorem fallback_price_reverse_scan (hist : List HistEntry) (b s : ℚ)
    (hscan : fbScan hist.reverse Option.none Option.none = (some b, some s))
    (hb0 : b ≠ 0) (hs0 : s ≠ 0) :
    fallbackPrice hist = (b + s) / 2 ∧
    (∀ (h2 : List HistEntry) (b2 : ℚ),
      fbScan h2.reverse Option.none Option.none = (some b2, Option.none) →
      b2 ≠ 0 → fallbackPrice h2 = b2) ∧
    (∀ (h2 : List HistEntry) (s2 : ℚ),
      fbScan h2.reverse Option.none Option.none = (Option.none, some s2) →
      s2 ≠ 0 → fallbackPrice h2 = s2) ∧
    (∀ h2 : List HistEntry,
      fbScan h2.reverse Option.none Option.none = (Option.none, Option.none) →
      fallbackPrice h2 = 0) ∧
    fallbackPrice histBS = 420 ∧ fallbackPrice histB = 400 ∧ fallbackPrice [] = 0 := by
  have hBS : fbScan histBS.reverse Option.none Option.none = (some 400, some 440) := by decide
  have hB : fbScan histB.reverse Option.none Option.none = (some 400, Option.none) := by decide
  refine ⟨?_, ?_, ?_, ?_, ?_, ?_, rfl⟩
  · unfold fallbackPrice
    rw [hscan]
    simp [hb0, hs0]
  · intro h2 b2 hsc hb2
    unfold fallbackPrice
    rw [hsc]
    simp [hb2]
  · intro h2 s2 hsc hs2
    unfold fallbackPrice
    rw [hsc]
    simp [hs2]
  · intro h2 hsc
    unfold fallbackPrice
    rw [hsc]
    simp
  · unfold fallbackPrice
    rw [hBS]
    norm_num
  · unfold fallbackPrice
    rw [hB]
    norm_num

theorem fallback_price_reverse_scan_witness :
    fallbackPrice histBS = (400 + 440) / 2 ∧
    (∀ (h2 : List HistEntry) (b2 : ℚ),
      fbScan h2.reverse Option.none Option.none = (some b2, Option.none) →
      b2 ≠ 0 → fallbackPrice h2 = b2) ∧
    (∀ (h2 : List HistEntry) (s2 : ℚ),
      fbScan h2.reverse Option.none Option.none = (Option.none, some s2) →
      s2 ≠ 0 → fallbackPrice h2 = s2) ∧
    (∀ h2 : List HistEntry,
      fbScan h2.reverse Option.none Option.none = (Option.none, Option.none) →
      fallbackPrice h2 = 0) ∧
    fallbackPrice histBS = 420 ∧ fallbackPrice histB = 400 ∧ fallbackPrice [] = 0 :=
  fallback_price_reverse_scan histBS 400 440 (by decide) (by decide) (by decide)

/-- C8 counterexample: on history `[{buyer, 0}, {seller, 440}]` both scans
find a price, but the Python truthiness test `if last_buyer and last_seller:`
treats the 0 as missing, so the code returns 440 instead of the midpoint 220
demanded by the claim's both-found rule. -/
theorem fallback_price_zero_counterexample :
    fallbackPrice histZero = 440 ∧
    fbScan histZero.reverse Option.none Option.none = (some 0, some 440) ∧
    ((0 : ℚ) + 440) / 2 = 220 ∧ fallbackPrice histZero ≠ 220 :=
  ⟨by decide, by decide, by norm_num, by decide⟩

/-! ## C5 — normalization totality and field guarantees -/

/-- C5 (corrected): both normalizers are total functions (they never raise,
by construction) and always produce an action in the role's allowed set.
The seller normalizer additionally guarantees a non-empty string message and
a numeric confidence clamped to [0, 1] (0.5 when missing or non-numeric).
The buyer normalizer gives no such guarantee: its message and confidence are
returned exactly as received (see the counterexample). -/
theorem normalize_action_message_confidence (parsed : RawDecision)
    (hist : List HistEntry) (m : ℚ) :
    (buyerNormalize parsed hist).action ∈ buyerAllowed ∧
    (sellerNormalize parsed m).action ∈ sellerAllowed ∧
    (sellerNormalize parsed m).message ≠ "" ∧
    0 ≤ (sellerNormalize parsed m).confidence ∧
    (sellerNormalize parsed m).confidence ≤ 1 := by
  refine ⟨?_, ?_, ?_, ?_, ?_⟩
  · show (match parsed.action.getD (PyVal.str "offer") with
      | PyVal.str s => if s ∈ buyerAllowed then s else "offer"
      | _ => "offer") ∈ buyerAllowed
    rcases parsed.action.getD (PyVal.str "offer") with _ | b | q | s
    · exact (by decide : ("offer" : String) ∈ buyerAllowed)
    · exact (by decide : ("offer" : String) ∈ buyerAllowed)
    · exact (by decide : ("offer" : String) ∈ buyerAllowed)
    · show (if s ∈ buyerAllowed then s else "offer") ∈ buyerAllowed
      by_cases hs : s ∈ buyerAllowed
      · rw [if_pos hs]; exact hs
      · rw [if_neg hs]; exact (by decide : ("offer" : String) ∈ buyerAllowed)
  · show (match parsed.action.getD (PyVal.str "reject") with
      | PyVal.str s => if s ∈ sellerAllowed then s else "reject"
      | _ => "reject") ∈ sellerAllowed
    rcases parsed.action.getD (PyVal.str "reject") with _ | b | q | s
    · exact (by decide : ("reject" : String) ∈ sellerAllowed)
    · exact (by decide : ("reject" : String) ∈ sellerAllowed)
    · exact (by decide : ("reject" : String) ∈ sellerAllowed)
    · show (if s ∈ sellerAllowed then s else "reject") ∈ sellerAllowed
      by_cases hs : s ∈ sellerAllowed
      · rw [if_pos hs]; exact hs
      · rw [if_neg hs]; exact (by decide : ("reject" : String) ∈ sellerAllowed)
  · show (match parsed.message.getD (PyVal.str "") with
      | PyVal.str s => if pyStrip s = "" then sellerSynthMessage _ _ m else s
      | _ => sellerSynthMessage _ _ m) ≠ ""
    rcases parsed.message.getD (PyVal.str "") with _ | b | q | s
    · exact sellerSynthMessage_ne_empty _ _ m
    · exact sellerSynthMessage_ne_empty _ _ m
    · exact sellerSynthMessage_ne_empty _ _ m
    · by_cases hstrip : pyStrip s = ""
      · simp only [hstrip, if_pos]
        exact sellerSynthMessage_ne_empty _ _ m
      · simp only [hstrip, if_neg]
        intro hs
        exact hstrip (pyStrip_empty_of_eq s hs)
  · exact le_max_left 0 _
  · exact max_le zero_le_one (min_le_left 1 _)

theorem normalize_action_message_confidence_witness :
    (buyerNormalize rawWalk []).action ∈ buyerAllowed ∧
    (sellerNormalize rawWalk 396).action ∈ sellerAllowed ∧
    (sellerNormalize rawWalk 396).message ≠ "" ∧
    0 ≤ (sellerNormalize rawWalk 396).confidence ∧
    (sellerNormalize rawWalk 396).confidence ≤ 1 :=
  normalize_action_message_confidence rawWalk [] 396

/-- C5 counterexample: the buyer normalizer passes an empty-string message
and a non-numeric confidence straight through, violating the claimed
"non-empty string message" and "confidence is a float in [0, 1], defaulting
to 0.5 when non-numeric" guarantees. -/
theorem buyer_normalizer_raw_passthrough_counterexample :
    (buyerNormalize rawMalformed []).message = PyVal.str "" ∧
    (buyerNormalize rawMalformed []).confidence = PyVal.str "high" ∧
    (buyerNormalize rawMalformed []).action = "offer" ∧
    (buyerNormalize rawMalformed []).offer_price = some 100 := by decide

/-! ## C1 — seller floor enforcement -/

theorem clamped_ge (m v : ℚ) : m ≤ (if v < m then m else v) := by
  split
  · exact le_refl m
  · exact le_of_not_lt (by assumption)

theorem sellerPrice_counter_ge (rawPrice : PyVal) (m p : ℚ)
    (h : sellerPrice "counter_offer" rawPrice m = some p) : m ≤ p := by
  unfold sellerPrice at h
  simp only [if_pos rfl] at h
  rcases hf : pyFloat rawPrice with _ | v
  · rw [hf] at h
    exact absurd h (by simp)
  · rw [hf] at h
    have hv : (if v < m then m else v) = p := by
      have := h
      simpa using this
    rw [← hv]
    exact clamped_ge m v

/-- C1 (corrected): the seller normalizer enforces the `min_acceptable`
floor only on `counter_offer` decisions — a counter-offer price is always
clamped to at least the floor — while an `accept` at a numeric price passes
through unchanged, action and price intact, even below the floor.
Consequently a negotiation CAN end with status success below
`min_acceptable` (see the counterexample). -/
theorem seller_floor_clamps_counter_offers_only (parsed : RawDecision) (m p q : ℚ)
    (hc : (sellerNormalize parsed m).action = "counter_offer")
    (hp : (sellerNormalize parsed m).offer_price = some p) :
    m ≤ p ∧ (sellerNormalize (rawAccept q) m).action = "accept" ∧
      (sellerNormalize (rawAccept q) m).offer_price = some q := by
  refine ⟨?_, rfl, rfl⟩
  have hc2 : sellerAction parsed = "counter_offer" := hc
  have hp2 : sellerPrice (sellerAction parsed) (parsed.offer_price.getD PyVal.none) m
      = some p := hp
  rw [hc2] at hp2
  exact sellerPrice_counter_ge _ m p hp2

theorem seller_floor_clamps_counter_offers_only_witness :
    (396 : ℚ) ≤ 396 ∧ (sellerNormalize (rawAccept 380) 396).action = "accept" ∧
      (sellerNormalize (rawAccept 380) 396).offer_price = some 380 :=
  seller_floor_clamps_counter_offers_only (rawCounter 100) 396 396 380 rfl
    (by
      show sellerPrice "counter_offer" (PyVal.num 100) 396 = some 396
      unfold sellerPrice
      norm_num [pyFloat])

/-- C1 counterexample: a raw seller `accept` at 380 with `min_acceptable`
396 is NOT downgraded to a counter-offer at 396 — the normalizer returns it
unchanged (message included, no explanatory clause) — and a full negotiation
in which the seller sends that decision ends with status "success" at 380,
below the floor 396 = 450 × 0.88. -/
theorem seller_subfloor_accept_counterexample :
    (sellerNormalize (rawAccept 380) 396).action = "accept" ∧
    (sellerNormalize (rawAccept 380) 396).offer_price = some 380 ∧
    (sellerNormalize (rawAccept 380) 396).message = "Deal." ∧
    (runNegotiation defaultConfig listingD Option.none (offerOracle 400)
        (acceptOracle 380)).toOption.map (fun r => (r.status, r.negotiated_price))
      = some ("success", 380) ∧
    (450 : ℚ) * defaultConfig.seller_minimum_multiplier = 396 ∧ (380 : ℚ) < 396 := by
  refine ⟨by decide, by decide, by decide, by decide, ?_, by decide⟩
  show (450 : ℚ) * (88/100) = 396
  norm_num

/-! ## C2 — buyer budget ceiling -/

/-- C2 (corrected): the buyer normalizer applies no budget bound at all — a
numeric `offer` price passes through unchanged no matter how large (the
normalizer never reads `max_budget`) — and a negotiation can end with status
success at a price strictly above the buyer's derived ceiling
`asking_price × buyer_budget_multiplier`. -/
theorem buyer_normalizer_no_budget_clamp (parsed : RawDecision) (hist : List HistEntry) (q : ℚ)
    (ha : parsed.action = some (PyVal.str "offer"))
    (hp : parsed.offer_price = some (PyVal.num q)) :
    (buyerNormalize parsed hist).offer_price = some q ∧
    (runNegotiation defaultConfig listingD Option.none (offerOracle 400)
        (acceptOracle 10000)).toOption.map (fun r => (r.status, r.negotiated_price))
      = some ("success", 10000) ∧
    maxBudgetOf defaultConfig 450 Option.none < 10000 := by
  refine ⟨?_, by decide, ?_⟩
  · have hact : buyerAction parsed = "offer" := by
      unfold buyerAction
      rw [ha]
      rfl
    show buyerPrice (buyerAction parsed) (parsed.offer_price.getD PyVal.none) hist = some q
    rw [hact, hp]
    rfl
  · show maxBudgetOf defaultConfig 450 Option.none < 10000
    unfold maxBudgetOf
    show (450 : ℚ) * (95/100) < 10000
    norm_num

theorem buyer_normalizer_no_budget_clamp_witness :
    (buyerNormalize (rawOffer 10000) []).offer_price = some 10000 ∧
    (runNegotiation defaultConfig listingD Option.none (offerOracle 400)
        (acceptOracle 10000)).toOption.map (fun r => (r.status, r.negotiated_price))
      = some ("success", 10000) ∧
    maxBudgetOf defaultConfig 450 Option.none < 10000 :=
  buyer_normalizer_no_budget_clamp (rawOffer 10000) [] 10000 rfl rfl

/-- C2 counterexample: with asking price 450 and no override the buyer's
ceiling is 427.5, yet the seller's `accept` at 10000 ends the negotiation
with status "success" at 10000 — the claimed invariant
`final_price ≤ max_budget` fails, and the buyer normalizer passes the
over-budget offer 10000 through unclamped. -/
theorem success_above_budget_counterexample :
    (runNegotiation defaultConfig listingD Option.none (offerOracle 400)
        (acceptOracle 10000)).toOption.map (fun r => (r.status, r.negotiated_price))
      = some ("success", 10000) ∧
    maxBudgetOf defaultConfig 450 Option.none = 855/2 ∧
    (855/2 : ℚ) < 10000 ∧
    (buyerNormalize (rawOffer 10000) (histB)).offer_price = some 10000 := by
  refine ⟨by decide, ?_, by norm_num, by decide⟩
  unfold maxBudgetOf
  show (450 : ℚ) * (95/100) = 855/2
  norm_num

/-! ## C3 — buyer accept transition -/

/-- C3 (code bug): a buyer turn whose normalized action is `accept` never
produces a success result.  `BuyerAgent._normalize_response` forces
`offer_price = None` for `accept` (buyer_agent.py lines 159-161), so the
loop's `f"✅ Deal reached at ${final_price:.2f}"` formats `None`, raises
`TypeError`, and the `except` handler returns status "error" with the
original asking price instead of the claimed `Success(offer_price)`. -/
theorem buyer_accept_becomes_error :
    (buyerNormalize (rawAccept 420) []).action = "accept" ∧
    (buyerNormalize (rawAccept 420) []).offer_price = Option.none ∧
    (runNegotiation defaultConfig listingD Option.none (acceptOracle 420)
        (failOracle "unused")).toOption.map
        (fun r => (r.status, r.negotiated_price, r.savings, r.turn_count))
      = some ("error", 450, 0, 1) := by decide

/-! ## C4 — savings formula -/

theorem assembleResult_original (listing : Listing) (maxTurns : Nat) (asking : ℚ)
    (outcome : List Msg × List HistEntry × LoopEnd) :
    (assembleResult listing maxTurns asking outcome).original_price = asking := by
  unfold assembleResult
  rcases outcome with ⟨ms, hist, en⟩
  rcases en with f | e
  · rcases f with _ | p
    · rfl
    · rfl
  · rfl

/-- C4 (corrected): `run_negotiation` computes savings directly as
`asking_price - final_price` on success — which is negative whenever the
accepted price exceeds the asking price — and as the literal 0 for "error"
and "no_deal" results; the `max(0, …)` formula of the claim exists only in
the helper `price_utils.calculate_savings`, which `run_negotiation` never
calls. -/
theorem savings_by_status (cfg : Config) (listing : Listing) (override : Option ℚ)
    (bo so : Oracle) (r : NegotiationResult)
    (h : runNegotiation cfg listing override bo so = Except.ok r) :
    (r.status = "success" → r.savings = r.original_price - r.negotiated_price) ∧
    (r.status = "error" → r.savings = 0 ∧ r.negotiated_price = r.original_price) ∧
    (r.status = "no_deal" → r.savings = 0 ∧ r.negotiated_price = r.original_price) ∧
    (r.status = "success" ∨ r.status = "error" ∨ r.status = "no_deal") ∧
    calculate_savings 450 500 = 0 := by
  have hcs : calculate_savings 450 500 = 0 := by
    unfold calculate_savings
    norm_num
  unfold runNegotiation at h
  rcases ha : askingOf listing.price with e | asking
  · rw [ha] at h
    exact absurd h (by simp)
  · rw [ha] at h
    simp only [Except.ok.injEq] at h
    subst h
    unfold assembleResult
    rcases hout : (loopAux bo so (asking * cfg.seller_minimum_multiplier)
        cfg.convergence_threshold 1 cfg.max_turns
        [Msg.mk "system" ("🤝 Negotiation started for " ++ (listing.title.getD "product" ++ "."))]
        []) with ⟨ms, hist, en⟩
    rcases en with f | e
    · rcases f with _ | p
      · dsimp only
        refine ⟨?_, ?_, ?_, ?_, hcs⟩
        · intro hx; exact absurd hx (by decide)
        · intro hx; exact absurd hx (by decide)
        · intro _; exact ⟨rfl, rfl⟩
        · right; right; rfl
      · dsimp only
        refine ⟨?_, ?_, ?_, ?_, hcs⟩
        · intro _; rfl
        · intro hx; exact absurd hx (by decide)
        · intro hx; exact absurd hx (by decide)
        · left; rfl
    · dsimp only
      refine ⟨?_, ?_, ?_, ?_, hcs⟩
      · intro hx; exact absurd hx (by decide)
      · intro _; exact ⟨rfl, rfl⟩
      · intro hx; exact absurd hx (by decide)
      · right; left; rfl

theorem savings_by_status_witness :
    (resFail.status = "success" → resFail.savings = resFail.original_price - resFail.negotiated_price) ∧
    (resFail.status = "error" → resFail.savings = 0 ∧ resFail.negotiated_price = resFail.original_price) ∧
    (resFail.status = "no_deal" → resFail.savings = 0 ∧ resFail.negotiated_price = resFail.original_price) ∧
    (resFail.status = "success" ∨ resFail.status = "error" ∨ resFail.status = "no_deal") ∧
    calculate_savings 450 500 = 0 :=
  savings_by_status defaultConfig listingD Option.none (failOracle "b") (failOracle "b")
    resFail rfl

/-- C4 counterexample: the seller accepts at 500 against asking price 450;
the result has status "success" and savings `450 - 500 = -50 < 0`, while the
claim demands `savings = max(0, 450 - 500) = 0` and "never negative". -/
theorem negative_savings_counterexample :
    (runNegotiation defaultConfig listingD Option.none (offerOracle 400)
        (acceptOracle 500)).toOption.map (fun r => (r.status, r.savings))
      = some ("success", (450 : ℚ) - 500) ∧
    (450 : ℚ) - 500 = -50 ∧ ((450 : ℚ) - 500) < 0 ∧
    max 0 ((450 : ℚ) - 500) = 0 :=
  ⟨rfl, by norm_num, by norm_num, by norm_num⟩

/-! ## C6 — input validation -/

theorem askingOf_num (q : ℚ) : askingOf (some (PyVal.num q)) = Except.ok q := by
  unfold askingOf pyOr pyTruthy
  by_cases h : q = 0
  · subst h
    rfl
  · simp [h, pyFloat]

/-- C6 (corrected): `run_negotiation` performs no input validation at all.
For every listing whose price is numeric — zero and negative included — and
every override, it returns a normal `NegotiationResult` whose original price
is that value; no validation error exists (the `validate_price` helper in
`backend/utils/validators.py` is never called).  The only synchronous
failure is the `float()` coercion of a non-numeric price value. -/
theorem run_negotiation_accepts_any_numeric_input (cfg : Config) (listing : Listing)
    (q : ℚ) (override : Option ℚ) (bo so : Oracle)
    (hp : listing.price = some (PyVal.num q)) :
    ∃ r, runNegotiation cfg listing override bo so = Except.ok r ∧ r.original_price = q := by
  unfold runNegotiation
  rw [hp, askingOf_num]
  exact ⟨_, rfl, assembleResult_original _ _ _ _⟩

theorem run_negotiation_accepts_any_numeric_input_witness :
    ∃ r, runNegotiation defaultConfig listingNeg (some (-5)) walkOracle (failOracle "x")
        = Except.ok r ∧ r.original_price = -50 :=
  run_negotiation_accepts_any_numeric_input defaultConfig listingNeg (-50) (some (-5))
    walkOracle (failOracle "x") rfl

/-- C6 counterexample: a listing with asking price −50 and a budget override
of −5 is not rejected — no validation error is raised, the loop runs a full
buyer turn, and a normal "no_deal" result is returned with the negative
original price, contradicting "fails synchronously … executing zero turns". -/
theorem no_input_validation_counterexample :
    (runNegotiation defaultConfig listingNeg (some (-5)) walkOracle
        (failOracle "x")).toOption.map (fun r => (r.status, r.turn_count, r.original_price))
      = some ("no_deal", 1, -50) := by decide

/-! ## C9 — convergence detector -/

/-- The `(history, loop-end)` outcome of the turn loop does not depend on
the convergence threshold or on the messages accumulated so far: the
convergence check only appends an advisory message. -/
theorem loopAux_threshold_irrelevant (bo so : Oracle) (mA th th' : ℚ) :
    ∀ (fuel t : Nat) (msgs msgs' : List Msg) (hist : List HistEntry),
      (loopAux bo so mA th t fuel msgs hist).2 = (loopAux bo so mA th' t fuel msgs' hist).2 := by
  intro fuel
  induction fuel with
  | zero =>
    intro t msgs msgs' hist
    rfl
  | succ n ih =>
    intro t msgs msgs' hist
    simp only [loopAux]
    rcases hstep : (stepTurn bo so mA t hist).2.2 with _ | p | _ | e
    · dsimp only
      exact ih (t + 1) _ _ (stepTurn bo so mA t hist).2.1
    · rfl
    · rfl
    · rfl

theorem assembleResult_stripped (l : Listing) (mt : Nat) (a : ℚ)
    (o o' : List Msg × List HistEntry × LoopEnd) (h : o.2 = o'.2) :
    ((assembleResult l mt a o).status, (assembleResult l mt a o).negotiated_price,
      (assembleResult l mt a o).savings, (assembleResult l mt a o).turn_count)
    = ((assembleResult l mt a o').status, (assembleResult l mt a o').negotiated_price,
      (assembleResult l mt a o').savings, (assembleResult l mt a o').turn_count) := by
  rcases o with ⟨m1, rest1⟩
  rcases o' with ⟨m2, rest2⟩
  simp only at h
  subst h
  rcases rest1 with ⟨h1, en⟩
  rcases en with f | e
  · rcases f with _ | p
    · rfl
    · rfl
  · rfl

/-- C9 (confirmed): `_check_convergence` returns false for histories with
fewer than 2 turns and whenever the reverse scan fails to find both a buyer
and a seller offer price; otherwise it returns `|buyer − seller| ≤
threshold` (default threshold 20); the spec's 430-vs-440 and 430-vs-470
examples hold; and its value never influences the loop outcome — results
with different thresholds differ at most in the advisory messages. -/
theorem convergence_detector_spec :
    (∀ (hist : List HistEntry) (th : ℚ), hist.length < 2 → checkConvergence hist th = false) ∧
    (∀ (hist : List HistEntry) (th : ℚ),
      (convScan hist.reverse Option.none Option.none).1 = Option.none ∨
        (convScan hist.reverse Option.none Option.none).2 = Option.none →
      checkConvergence hist th = false) ∧
    (∀ (hist : List HistEntry) (th b s : ℚ),
      2 ≤ hist.length →
      convScan hist.reverse Option.none Option.none = (some b, some s) →
      (checkConvergence hist th = true ↔ |b - s| ≤ th)) ∧
    defaultConfig.convergence_threshold = 20 ∧
    checkConvergence histConv1 20 = true ∧
    checkConvergence histConv2 20 = false ∧
    (∀ (cfg : Config) (th' : ℚ) (listing : Listing) (override : Option ℚ) (bo so : Oracle),
      (runNegotiation cfg listing override bo so).toOption.map
          (fun r => (r.status, r.negotiated_price, r.savings, r.turn_count))
        = (runNegotiation
            (Config.mk cfg.max_turns th' cfg.buyer_budget_multiplier
              cfg.seller_minimum_multiplier) listing override bo so).toOption.map
          (fun r => (r.status, r.negotiated_price, r.savings, r.turn_count))) := by
  have hconv1 : convScan histConv1.reverse Option.none Option.none
      = (some 430, some 440) := by decide
  have hconv2 : convScan histConv2.reverse Option.none Option.none
      = (some 430, some 470) := by decide
  refine ⟨?_, ?_, ?_, rfl, ?_, ?_, ?_⟩
  · intro hist th h
    unfold checkConvergence
    rw [if_pos h]
  · intro hist th h
    unfold checkConvergence
    split
    · rfl
    · rcases hsc : (convScan hist.reverse Option.none Option.none) with ⟨b, s⟩
      rw [hsc] at h
      dsimp only at h ⊢
      rcases b with _ | b
      · rfl
      · rcases s with _ | s
        · rfl
        · rcases h with h | h
          · exact Option.noConfusion h
          · exact Option.noConfusion h
  · intro hist th b s hlen hscan
    unfold checkConvergence
    rw [if_neg (by omega), hscan]
    dsimp only
    rw [decide_eq_true_eq]
  · unfold checkConvergence
    rw [if_neg (by decide), hconv1]
    dsimp only
    rw [decide_eq_true_eq]
    rw [show (430 : ℚ) - 440 = -10 from by norm_num, abs_neg,
      abs_of_nonneg (by norm_num : (0 : ℚ) ≤ 10)]
    norm_num
  · unfold checkConvergence
    rw [if_neg (by decide), hconv2]
    dsimp only
    rw [show ((430 : ℚ), (470 : ℚ)).1 - ((430 : ℚ), (470 : ℚ)).2 = -40 from by norm_num]
    rw [show (decide (|(-40 : ℚ)| ≤ 20)) = false from by
      rw [abs_neg, abs_of_nonneg (by norm_num : (0 : ℚ) ≤ 40)]
      simp only [decide_eq_false_iff_not]
      norm_num]
  · intro cfg th' listing override bo so
    unfold runNegotiation
    rcases ha : askingOf listing.price with e | asking
    · rfl
    · dsimp only
      simp only [Except.toOption, Option.map]
      exact congrArg some (assembleResult_stripped _ _ _ _ _
        (loopAux_threshold_irrelevant bo so _ _ th' cfg.max_turns 1 _ _ []))

theorem convergence_detector_spec_witness :
    checkConvergence histB 20 = false :=
  convergence_detector_spec.1 histB 20 (by decide)

/-! ## C10 — streaming refinement -/

theorem emitLoop_eq (l : List Msg) : emitLoop l = l := by
  induction l with
  | nil => rfl
  | cons m ms ih =>
    unfold emitLoop
    rw [ih]

/-- C10 (confirmed): `run_negotiation_streaming` returns exactly the result
of `run_negotiation` on the same inputs, and when a callback is supplied it
is invoked once per message of that completed result, in order (the
emission loop runs only after `run_negotiation` has returned). -/
theorem streaming_refines_run (cfg : Config) (listing : Listing) (override : Option ℚ)
    (bo so : Oracle) (hasCallback : Bool) (r : NegotiationResult) (ev : List Msg)
    (h : runNegotiationStreaming cfg listing override bo so hasCallback = Except.ok (r, ev)) :
    runNegotiation cfg listing override bo so = Except.ok r ∧
    ev = (if hasCallback then r.messages else []) := by
  unfold runNegotiationStreaming at h
  rcases hr : runNegotiation cfg listing override bo so with e | result
  · rw [hr] at h
    exact absurd h (by simp)
  · rw [hr] at h
    simp only [Except.ok.injEq, Prod.mk.injEq] at h
    rcases h with ⟨h1, h2⟩
    subst h1
    refine ⟨rfl, ?_⟩
    rw [← h2]
    rcases hasCallback with _ | _
    · rfl
    · rw [if_pos (rfl : true = true), if_pos (rfl : true = true), emitLoop_eq]

theorem streaming_refines_run_witness :
    runNegotiation defaultConfig listingD Option.none walkOracle (failOracle "x")
      = Except.ok resWalk ∧
    resWalk.messages = (if true then resWalk.messages else []) :=
  streaming_refines_run defaultConfig listingD Option.none walkOracle (failOracle "x")
    true resWalk resWalk.messages rfl

/-! ## C7 — provider failure handling -/

theorem stepBuyer_cont_hist (bo : Oracle) (t : Nat) (hist : List HistEntry)
    (h : (stepBuyer bo t hist).2.2 = TurnOut.cont) :
    (stepBuyer bo t hist).2.1.length = hist.length + 1 := by
  rcases hsb : stepBuyer bo t hist with ⟨em, hist2, out⟩
  rw [hsb] at h
  dsimp only at h ⊢
  subst h
  unfold stepBuyer at hsb
  split at hsb
  · exact absurd hsb (by simp)
  · dsimp only at hsb
    split at hsb
    · split at hsb
      · split at hsb
        · exact absurd hsb (by simp)
        · exact absurd hsb (by simp)
      · split at hsb
        · exact absurd hsb (by simp)
        · simp only [Prod.mk.injEq] at hsb
          rcases hsb with ⟨-, h2, -⟩
          rw [← h2]
          simp
    · exact absurd hsb (by simp)

theorem stepSeller_cont_hist (so : Oracle) (mA : ℚ) (t : Nat) (hist : List HistEntry)
    (h : (stepSeller so mA t hist).2.2 = TurnOut.cont) :
    (stepSeller so mA t hist).2.1.length = hist.length + 1 := by
  rcases hsb : stepSeller so mA t hist with ⟨em, hist2, out⟩
  rw [hsb] at h
  dsimp only at h ⊢
  subst h
  unfold stepSeller at hsb
  split at hsb
  · exact absurd hsb (by simp)
  · dsimp only at hsb
    split at hsb
    · split at hsb
      · exact absurd hsb (by simp)
      · exact absurd hsb (by simp)
    · split at hsb
      · exact absurd hsb (by simp)
      · simp only [Prod.mk.injEq] at hsb
        rcases hsb with ⟨-, h2, -⟩
        rw [← h2]
        simp

theorem stepTurn_cont_hist (bo so : Oracle) (mA : ℚ) (t : Nat) (hist : List HistEntry)
    (h : (stepTurn bo so mA t hist).2.2 = TurnOut.cont) :
    (stepTurn bo so mA t hist).2.1.length = hist.length + 1 := by
  unfold stepTurn at h ⊢
  split at h
  · rw [if_pos (by assumption)]
    exact stepBuyer_cont_hist bo t hist h
  · rw [if_neg (by assumption)]
    exact stepSeller_cont_hist so mA t hist h

theorem stepTurn_oracle_err (bo so : Oracle) (mA : ℚ) (t : Nat) (hist : List HistEntry)
    (e : String) (h : (if t % 2 = 1 then bo t hist else so t hist) = Except.error e) :
    stepTurn bo so mA t hist = ([], hist, TurnOut.err e) := by
  unfold stepTurn
  by_cases hp : t % 2 = 1
  · rw [if_pos hp] at h ⊢
    unfold stepBuyer
    rw [h]
  · rw [if_neg hp] at h ⊢
    unfold stepSeller
    rw [h]

/-- If every turn before `N` continues and the decision source of turn `N`
raises, the loop reaches turn `N` with exactly `N − 1` history entries and
ends in the `errored` state with that error. -/
theorem loopAux_error_reach (bo so : Oracle) (mA th : ℚ) (N : Nat) (e : String)
    (hcont : ∀ k, 1 ≤ k → k < N → ∀ hist, (stepTurn bo so mA k hist).2.2 = TurnOut.cont)
    (herr : ∀ hist : List HistEntry,
      (if N % 2 = 1 then bo N hist else so N hist) = Except.error e) :
    ∀ (fuel t : Nat) (msgs : List Msg) (hist : List HistEntry),
      1 ≤ t → t ≤ N → N ≤ t + fuel - 1 → hist.length + 1 = t →
      (loopAux bo so mA th t fuel msgs hist).2.1.length + 1 = N ∧
      (loopAux bo so mA th t fuel msgs hist).2.2 = LoopEnd.errored e := by
  intro fuel
  induction fuel with
  | zero =>
    intro t msgs hist h1 h2 h3 h4
    omega
  | succ n ih =>
    intro t msgs hist h1 h2 h3 h4
    by_cases hN : t = N
    · subst hN
      have hst := stepTurn_oracle_err bo so mA t hist e (herr hist)
      simp only [loopAux, hst]
      exact ⟨by omega, trivial⟩
    · have htN : t < N := lt_of_le_of_ne h2 hN
      have hc := hcont t h1 htN hist
      have hlen := stepTurn_cont_hist bo so mA t hist hc
      simp only [loopAux]
      rcases hstep : (stepTurn bo so mA t hist).2.2 with _ | p | _ | e2
      · dsimp only
        exact ih (t + 1) _ (stepTurn bo so mA t hist).2.1 (by omega) (by omega)
          (by omega) (by omega)
      · rw [hstep] at hc
        exact absurd hc (by simp)
      · rw [hstep] at hc
        exact absurd hc (by simp)
      · rw [hstep] at hc
        exact absurd hc (by simp)

/-- C7 (confirmed): if the turns before `N` all continue and the decision
source consulted on turn `N` raises, `run_negotiation` does not propagate
the exception: it returns a result with status "error", `turn_count = N − 1`
(the history accumulated before the failure), `negotiated_price` equal to
the original asking price, and zero savings. -/
theorem provider_failure_error_result (cfg : Config) (listing : Listing) (q : ℚ)
    (override : Option ℚ) (bo so : Oracle) (N : Nat) (e : String)
    (hp : listing.price = some (PyVal.num q))
    (hN1 : 1 ≤ N) (hN2 : N ≤ cfg.max_turns)
    (hcont : ∀ k, 1 ≤ k → k < N → ∀ hist,
      (stepTurn bo so (q * cfg.seller_minimum_multiplier) k hist).2.2 = TurnOut.cont)
    (herr : ∀ hist : List HistEntry,
      (if N % 2 = 1 then bo N hist else so N hist) = Except.error e) :
    ∃ r, runNegotiation cfg listing override bo so = Except.ok r ∧
      r.status = "error" ∧ r.turn_count = N - 1 ∧ r.negotiated_price = q ∧
      r.savings = 0 := by
  unfold runNegotiation
  rw [hp, askingOf_num]
  dsimp only
  have hreach := loopAux_error_reach bo so (q * cfg.seller_minimum_multiplier)
    cfg.convergence_threshold N e hcont herr cfg.max_turns 1
    [Msg.mk "system" ("🤝 Negotiation started for " ++ (listing.title.getD "product" ++ "."))]
    [] (by omega) hN1 (by omega) (by simp)
  rcases hout : (loopAux bo so (q * cfg.seller_minimum_multiplier)
      cfg.convergence_threshold 1 cfg.max_turns
      [Msg.mk "system" ("🤝 Negotiation started for " ++ (listing.title.getD "product" ++ "."))]
      []) with ⟨ms, hist, en⟩
  rw [hout] at hreach
  dsimp only at hreach
  rcases hreach with ⟨hlen, hend⟩
  subst hend
  refine ⟨_, rfl, ?_⟩
  unfold assembleResult
  dsimp only
  exact ⟨rfl, by omega, rfl, rfl⟩

theorem provider_failure_error_result_witness :
    ∃ r, runNegotiation defaultConfig listingD Option.none failAt3Oracle stallOracle
        = Except.ok r ∧
      r.status = "error" ∧ r.turn_count = 3 - 1 ∧ r.negotiated_price = 450 ∧
      r.savings = 0 :=
  provider_failure_error_result defaultConfig listingD 450 Option.none failAt3Oracle
    stallOracle 3 "boom" rfl (by omega) (by decide)
    (by
      intro k hk1 hk2 hist
      have hk : k = 1 ∨ k = 2 := by omega
      rcases hk with hk | hk
      · subst hk
        rfl
      · subst hk
        rfl)
    (fun hist => rfl)

end DealScout
